import Mathlib

/-!
Shallow embedding of the ToknTalk backend canister (`src/backend/src/lib.rs`).

Thread-local `HashMap` stores are modelled as association lists whose list
order stands for the map's (arbitrary) iteration order; `HashMap::insert`
replaces in place when the key exists and appends otherwise, and
`entry(..).or_insert(..)` is modelled by `updateA`.  The caller principal and
the IC time are passed explicitly.  `u64` values are modelled as `Nat`
(the spec treats the counters and weights as unbounded non-negative
accumulators); Rust's `u64::saturating_sub` coincides with truncated `Nat`
subtraction.  Rust's stable `slice::sort_by` is modelled by
`List.insertionSort`, which is stable for a total preorder.
-/

namespace ToknTalk

abbrev Principal := Nat

/-- Lookup in an association list (models `HashMap::get`). -/
def lookupA {K V : Type} [DecidableEq K] : List (K × V) → K → Option V
  | [], _ => none
  | (k, v) :: rest, key => if k = key then some v else lookupA rest key

/-- Insert into an association list (models `HashMap::insert`): replaces the
value in place when the key is present, appends otherwise. -/
def insertA {K V : Type} [DecidableEq K] : List (K × V) → K → V → List (K × V)
  | [], key, val => [(key, val)]
  | (k, v) :: rest, key, val =>
    if k = key then (k, val) :: rest else (k, v) :: insertA rest key val

/-- Models `map.entry(key).or_insert(d)` followed by applying mutation `f`
to the entry. -/
def updateA {K V : Type} [DecidableEq K] (d : V) (f : V → V) : List (K × V) → K → List (K × V)
  | [], key => [(key, f d)]
  | (k, v) :: rest, key =>
    if k = key then (k, f v) :: rest else (k, v) :: updateA d f rest key

/-- Models `map.get_mut(key)` followed by applying mutation `f` when the key
is present (no insertion when absent). -/
def modifyA {K V : Type} [DecidableEq K] (f : V → V) : List (K × V) → K → List (K × V)
  | [], _ => []
  | (k, v) :: rest, key =>
    if k = key then (k, f v) :: rest else (k, v) :: modifyA f rest key

-- Data structures (mirroring the Rust declarations)

structure Todo where
  id : Nat
  content : String
  completed : Bool
  deriving DecidableEq, Inhabited

inductive PostType where
  | Original : PostType
  | Reshare (original_post_id : Nat) (original_author : Principal) : PostType
  deriving DecidableEq, Inhabited

structure Post where
  id : Nat
  author : Principal
  content : String
  created_at : Nat
  likes : List Principal
  comments : List Nat
  hashtags : List String
  post_type : PostType
  reshare_count : Nat
  deriving DecidableEq, Inhabited

structure Comment where
  id : Nat
  post_id : Nat
  author : Principal
  content : String
  created_at : Nat
  deriving DecidableEq, Inhabited

structure UserProfile where
  id : Principal
  username : String
  bio : List String
  avatar_url : List String
  followers_count : Nat
  following_count : Nat
  created_at : Nat
  deriving DecidableEq, Inhabited

inductive NotificationType where
  | Follow (user_id : Principal) : NotificationType
  | Like (post_id : Nat) (user_id : Principal) : NotificationType
  | Comment (post_id : Nat) (user_id : Principal) (comment_id : Nat) : NotificationType
  | Message (user_id : Principal) (message_id : Nat) : NotificationType
  | Mention (post_id : Nat) (user_id : Principal) : NotificationType
  | Reshare (post_id : Nat) (user_id : Principal) : NotificationType
  deriving DecidableEq, Inhabited

structure Notification where
  id : Nat
  recipient : Principal
  notification_type : NotificationType
  created_at : Nat
  read : Bool
  deriving DecidableEq, Inhabited

structure Message where
  id : Nat
  fromP : Principal
  toP : Principal
  content : String
  created_at : Nat
  read : Bool
  deriving DecidableEq, Inhabited

structure ChatThread where
  id : String
  participants : List Principal
  last_message : Option Message
  updated_at : Nat
  deriving DecidableEq, Inhabited

structure TrendingTopic where
  hashtag : String
  count : Nat
  last_used : Nat
  deriving DecidableEq, Inhabited

/-- The whole thread-local state of the canister. -/
structure State where
  todos : List Todo
  posts : List (Nat × Post)
  comments : List (Nat × Comment)
  profiles : List (Principal × UserProfile)
  follows : List (Principal × List Principal)
  notifications : List (Nat × Notification)
  messages : List (Nat × Message)
  chat_threads : List (String × ChatThread)
  trending_topics : List (String × TrendingTopic)
  counter : Nat
  post_counter : Nat
  comment_counter : Nat
  notification_counter : Nat
  message_counter : Nat
  interaction_graph : List (Principal × List (Principal × Nat))
  content_affinity : List (Principal × List (String × Nat))
  deriving DecidableEq, Inhabited

/-- The initial (empty) canister state. -/
def State.empty : State where
  todos := []
  posts := []
  comments := []
  profiles := []
  follows := []
  notifications := []
  messages := []
  chat_threads := []
  trending_topics := []
  counter := 0
  post_counter := 0
  comment_counter := 0
  notification_counter := 0
  message_counter := 0
  interaction_graph := []
  content_affinity := []

-- Helper functions of the source

/-- `update_interaction_graph`: adds `weight` to the `(from_user, to_user)`
entry, creating nested entries as needed. -/
def update_interaction_graph (g : List (Principal × List (Principal × Nat)))
    (from_user to_user : Principal) (weight : Nat) :
    List (Principal × List (Principal × Nat)) :=
  updateA [] (fun m => updateA 0 (· + weight) m to_user) g from_user

/-- `update_content_affinity`: for every hashtag in the list (duplicates
included), adds `weight` to the user's score for that hashtag. -/
def update_content_affinity (aff : List (Principal × List (String × Nat)))
    (user : Principal) (hashtags : List String) (weight : Nat) :
    List (Principal × List (String × Nat)) :=
  updateA [] (fun m => hashtags.foldl (fun m h => updateA 0 (· + weight) m h) m) aff user

/-- `update_trending_topics`: for each hashtag occurrence, increments its
count by 1 and sets `last_used` to the current time (creating the entry with
count 0 first when absent). -/
def update_trending_topics (topics : List (String × TrendingTopic))
    (hashtags : List String) (now : Nat) : List (String × TrendingTopic) :=
  hashtags.foldl
    (fun ts h =>
      updateA { hashtag := h, count := 0, last_used := now }
        (fun t => { t with count := t.count + 1, last_used := now }) ts h)
    topics

/-- Rust's `str::split_whitespace`, modelled at character level (maximal
runs of non-whitespace characters, empty runs dropped) so that it evaluates
inside the kernel. -/
def splitWSAux : List Char → List Char → List (List Char)
  | [], acc => if acc = [] then [] else [acc.reverse]
  | c :: cs, acc =>
    if c.isWhitespace then
      (if acc = [] then [] else [acc.reverse]) ++ splitWSAux cs []
    else splitWSAux cs (c :: acc)

def split_whitespace (s : String) : List String :=
  (splitWSAux s.data []).map String.mk

/-- Rust's `word.starts_with('#')` on a token. -/
def isHashtagToken : List Char → Bool
  | '#' :: _ => true
  | _ => false

/-- The hashtag extraction inside `create_post_internal`: whitespace-split
the content and keep the tokens starting with `'#'` (case-sensitive literal
tokens, in order of occurrence). -/
def extract_hashtags (content : String) : List String :=
  (split_whitespace content).filter (fun w => isHashtagToken w.data)

/-- `create_post_internal`: allocates the next post id, extracts hashtags,
stores the post, then updates trending topics and the author's content
affinity (weight 1). -/
def create_post_internal (st : State) (author : Principal) (content : String)
    (post_type : PostType) (now : Nat) : Except String Post × State :=
  let post_id := st.post_counter + 1
  let hashtags := extract_hashtags content
  let post : Post :=
    { id := post_id, author := author, content := content, created_at := now
      likes := [], comments := [], hashtags := hashtags, post_type := post_type
      reshare_count := 0 }
  let st' := { st with
    post_counter := post_id
    posts := insertA st.posts post_id post
    trending_topics := update_trending_topics st.trending_topics hashtags now
    content_affinity := update_content_affinity st.content_affinity author hashtags 1 }
  (Except.ok post, st')

-- Basic counter / todo operations

/-- `increment_counter`. -/
def increment_counter (st : State) : Nat × State :=
  let val := st.counter + 1
  (val, { st with counter := val })

/-- `set_counter`. -/
def set_counter (st : State) (value : Nat) : Nat × State :=
  (value, { st with counter := value })

/-- `add_todo`: allocates the next id from the shared counter and pushes the
todo. -/
def add_todo (st : State) (text : String) : Todo × State :=
  let id := st.counter + 1
  let todo : Todo := { id := id, content := text, completed := false }
  (todo, { st with counter := id, todos := st.todos ++ [todo] })

/-- Toggles the first todo with the given id in the list. -/
def toggleTodoList : List Todo → Nat → Option Todo × List Todo
  | [], _ => (none, [])
  | t :: rest, id =>
    if t.id = id then
      (some { t with completed := !t.completed }, { t with completed := !t.completed } :: rest)
    else
      let r := toggleTodoList rest id
      (r.1, t :: r.2)

/-- `toggle_todo`. -/
def toggle_todo (st : State) (id : Nat) : Option Todo × State :=
  let r := toggleTodoList st.todos id
  (r.1, { st with todos := r.2 })

/-- `delete_todo`: retains todos with a different id and reports whether the
list shrank. -/
def delete_todo (st : State) (id : Nat) : Bool × State :=
  let todos' := st.todos.filter (fun todo => decide (¬ todo.id = id))
  (decide (todos'.length < st.todos.length), { st with todos := todos' })

-- Profile operations

/-- `create_profile`. -/
def create_profile (st : State) (caller : Principal) (username : String)
    (bio avatar_url : List String) (now : Nat) : Except String UserProfile × State :=
  if (lookupA st.profiles caller).isSome then
    (Except.error "Profile already exists", st)
  else
    let profile : UserProfile :=
      { id := caller, username := username, bio := bio, avatar_url := avatar_url
        followers_count := 0, following_count := 0, created_at := now }
    (Except.ok profile, { st with profiles := insertA st.profiles caller profile })

/-- `update_profile`. -/
def update_profile (st : State) (caller : Principal)
    (bio avatar_url : Option (List String)) : Except String UserProfile × State :=
  match lookupA st.profiles caller with
  | some profile =>
    let profile' := { profile with
      bio := bio.getD profile.bio
      avatar_url := avatar_url.getD profile.avatar_url }
    (Except.ok profile', { st with profiles := insertA st.profiles caller profile' })
  | none => (Except.error "Profile not found", st)

-- Post operations

/-- `create_post`. -/
def create_post (st : State) (caller : Principal) (content : String) (now : Nat) :
    Except String Post × State :=
  create_post_internal st caller content PostType.Original now

/-- `reshare_post`. -/
def reshare_post (st : State) (caller : Principal) (post_id : Nat) (now : Nat) :
    Except String Post × State :=
  match lookupA st.posts post_id with
  | none => (Except.error "Original post not found", st)
  | some original_post =>
    let reshare_content := "Reshared: " ++ original_post.content
    let post_type := PostType.Reshare post_id original_post.author
    match create_post_internal st caller reshare_content post_type now with
    | (Except.error e, st1) => (Except.error e, st1)
    | (Except.ok rp, st1) =>
      let st2 := { st1 with
        posts := modifyA (fun p => { p with reshare_count := p.reshare_count + 1 })
          st1.posts post_id }
      let notification_id := st2.notification_counter + 1
      let notification : Notification :=
        { id := notification_id, recipient := original_post.author
          notification_type := NotificationType.Reshare post_id caller
          created_at := now, read := false }
      (Except.ok rp,
        { st2 with
          notification_counter := notification_id
          notifications := insertA st2.notifications notification_id notification })

/-- `get_feed`: all posts sorted by `created_at` descending (stable sort),
truncated to `limit`. -/
def get_feed (st : State) (limit : Nat) : List Post :=
  (((st.posts.map Prod.snd).insertionSort
    (fun a b => b.created_at ≤ a.created_at)).take limit)

/-- The per-post score computed inside `get_personalized_feed`, transcribed
from the source's three sequential additions. -/
def postScore (st : State) (caller : Principal) (p : Post) : Nat :=
  let score : Nat := 0
  let followsAuthor : Bool :=
    match lookupA st.follows caller with
    | some following => decide (p.author ∈ following)
    | none => false
  let score := if followsAuthor then score + 10 else score
  let score :=
    match lookupA st.content_affinity caller with
    | some user_affinity =>
      p.hashtags.foldl (fun acc h =>
        match lookupA user_affinity h with
        | some hashtag_score => acc + hashtag_score
        | none => acc) score
    | none => score
  match lookupA st.interaction_graph caller with
  | some interactions =>
    match lookupA interactions p.author with
    | some strength => score + strength
    | none => score
  | none => score

/-- `get_personalized_feed`: scores every stored post, stable-sorts by score
descending and truncates to `limit`. -/
def get_personalized_feed (st : State) (caller : Principal) (limit : Nat) : List Post :=
  let scored_posts := (st.posts.map Prod.snd).map (fun p => (p, postScore st caller p))
  let sorted := scored_posts.insertionSort (fun a b => b.2 ≤ a.2)
  (sorted.take limit).map Prod.fst

-- Like / comment operations

/-- `like_post`. -/
def like_post (st : State) (caller : Principal) (post_id : Nat) (now : Nat) :
    Except String Post × State :=
  match lookupA st.posts post_id with
  | none => (Except.error "Post not found", st)
  | some post =>
    if caller ∈ post.likes then
      (Except.error "Post already liked", st)
    else
      let post' := { post with likes := post.likes ++ [caller] }
      let notification_id := st.notification_counter + 1
      let notification : Notification :=
        { id := notification_id, recipient := post.author
          notification_type := NotificationType.Like post_id caller
          created_at := now, read := false }
      (Except.ok post',
        { st with
          posts := insertA st.posts post_id post'
          notification_counter := notification_id
          notifications := insertA st.notifications notification_id notification
          interaction_graph := update_interaction_graph st.interaction_graph caller post.author 1 })

/-- `unlike_post`. -/
def unlike_post (st : State) (caller : Principal) (post_id : Nat) :
    Except String Post × State :=
  match lookupA st.posts post_id with
  | none => (Except.error "Post not found", st)
  | some post =>
    if caller ∈ post.likes then
      let post' := { post with likes := post.likes.erase caller }
      (Except.ok post', { st with posts := insertA st.posts post_id post' })
    else
      (Except.error "Post not liked", st)

/-- `add_comment`: stores the comment unconditionally, then (only when the
post exists) links it to the post, emits a notification and records a weight-2
interaction. -/
def add_comment (st : State) (caller : Principal) (post_id : Nat) (content : String)
    (now : Nat) : Except String Comment × State :=
  let comment_id := st.comment_counter + 1
  let comment : Comment :=
    { id := comment_id, post_id := post_id, author := caller
      content := content, created_at := now }
  let st1 := { st with
    comment_counter := comment_id
    comments := insertA st.comments comment_id comment }
  match lookupA st1.posts post_id with
  | none => (Except.ok comment, st1)
  | some post =>
    let post' := { post with comments := post.comments ++ [comment_id] }
    let notification_id := st1.notification_counter + 1
    let notification : Notification :=
      { id := notification_id, recipient := post.author
        notification_type := NotificationType.Comment post_id caller comment_id
        created_at := now, read := false }
    (Except.ok comment,
      { st1 with
        posts := insertA st1.posts post_id post'
        notification_counter := notification_id
        notifications := insertA st1.notifications notification_id notification
        interaction_graph := update_interaction_graph st1.interaction_graph caller post.author 2 })

-- Follow operations

/-- `follow_user`. -/
def follow_user (st : State) (caller : Principal) (user_id : Principal) (now : Nat) :
    Except String Unit × State :=
  if caller = user_id then
    (Except.error "Cannot follow yourself", st)
  else
    let following := (lookupA st.follows caller).getD []
    if user_id ∈ following then
      (Except.error "Already following", st)
    else
      let notification_id := st.notification_counter + 1
      let notification : Notification :=
        { id := notification_id, recipient := user_id
          notification_type := NotificationType.Follow caller
          created_at := now, read := false }
      (Except.ok (),
        { st with
          follows := updateA [] (fun l => l ++ [user_id]) st.follows caller
          profiles :=
            modifyA (fun p => { p with followers_count := p.followers_count + 1 })
              (modifyA (fun p => { p with following_count := p.following_count + 1 })
                st.profiles caller)
              user_id
          notification_counter := notification_id
          notifications := insertA st.notifications notification_id notification
          interaction_graph := update_interaction_graph st.interaction_graph caller user_id 5 })

/-- `unfollow_user`: removes the first occurrence of the target from the
caller's follow list and decrements both profile counters with saturating
subtraction (`Nat` truncated subtraction). -/
def unfollow_user (st : State) (caller : Principal) (user_id : Principal) :
    Except String Unit × State :=
  match lookupA st.follows caller with
  | none => (Except.error "Not following", st)
  | some following =>
    if user_id ∈ following then
      (Except.ok (),
        { st with
          follows := insertA st.follows caller (following.erase user_id)
          profiles :=
            modifyA (fun p => { p with followers_count := p.followers_count - 1 })
              (modifyA (fun p => { p with following_count := p.following_count - 1 })
                st.profiles caller)
              user_id })
    else
      (Except.error "Not following", st)

/-- `get_following`. -/
def get_following (st : State) (user_id : Principal) : List Principal :=
  (lookupA st.follows user_id).getD []

-- Notification operations

/-- `mark_notification_as_read`. -/
def mark_notification_as_read (st : State) (caller : Principal) (notification_id : Nat) :
    Except String Unit × State :=
  match lookupA st.notifications notification_id with
  | none => (Except.error "Notification not found", st)
  | some notification =>
    if notification.recipient = caller then
      (Except.ok (),
        { st with notifications :=
            insertA st.notifications notification_id { notification with read := true } })
    else
      (Except.error "Not authorized", st)

/-- `mark_all_notifications_as_read`. -/
def mark_all_notifications_as_read (st : State) (caller : Principal) :
    Except String Unit × State :=
  (Except.ok (),
    { st with notifications := st.notifications.map (fun e =>
        if e.2.recipient = caller then (e.1, { e.2 with read := true }) else e) })

-- Message operations

/-- `send_message`. -/
def send_message (st : State) (caller : Principal) (to_user_id : Principal)
    (content : String) (now : Nat) : Except String Message × State :=
  if caller = to_user_id then
    (Except.error "Cannot send message to yourself", st)
  else
    let message_id := st.message_counter + 1
    let message : Message :=
      { id := message_id, fromP := caller, toP := to_user_id
        content := content, created_at := now, read := false }
    let thread_id :=
      if caller < to_user_id then toString caller ++ "_" ++ toString to_user_id
      else toString to_user_id ++ "_" ++ toString caller
    let notification_id := st.notification_counter + 1
    let notification : Notification :=
      { id := notification_id, recipient := to_user_id
        notification_type := NotificationType.Message caller message_id
        created_at := now, read := false }
    (Except.ok message,
      { st with
        message_counter := message_id
        messages := insertA st.messages message_id message
        chat_threads :=
          updateA
            { id := thread_id, participants := [caller, to_user_id]
              last_message := none, updated_at := now }
            (fun t => { t with last_message := some message, updated_at := now })
            st.chat_threads thread_id
        notification_counter := notification_id
        notifications := insertA st.notifications notification_id notification })

/-- `mark_messages_as_read`. -/
def mark_messages_as_read (st : State) (caller : Principal) (from_user_id : Principal) :
    Nat × State :=
  let hit := fun (m : Message) =>
    decide (m.fromP = from_user_id ∧ m.toP = caller ∧ m.read = false)
  ((st.messages.filter (fun e => hit e.2)).length,
    { st with messages := st.messages.map (fun e =>
        if hit e.2 then (e.1, { e.2 with read := true }) else e) })

-- Social graph queries

/-- `get_mutual_connections`: members of the caller's follow list that the
other user also follows. -/
def get_mutual_connections (st : State) (caller : Principal) (user_id : Principal) :
    List Principal :=
  let caller_following := (lookupA st.follows caller).getD []
  let user_following := (lookupA st.follows user_id).getD []
  caller_following.filter (fun u => decide (u ∈ user_following))

/-- The per-candidate score computed inside `suggest_connections`. -/
def suggestScore (st : State) (caller : Principal) (candidate : Principal) : Nat :=
  let mutual_count := (get_mutual_connections st caller candidate).length
  let score := mutual_count * 10
  match lookupA st.content_affinity caller, lookupA st.content_affinity candidate with
  | some caller_affinity, some profile_affinity =>
    caller_affinity.foldl (fun acc e =>
      match lookupA profile_affinity e.1 with
      | some profile_score => acc + min e.2 profile_score
      | none => acc) score
  | _, _ => score

/-- `suggest_connections`: candidates are all profiles other than the caller
and the accounts already followed; stable-sorted by score descending and
truncated to `limit`. -/
def suggest_connections (st : State) (caller : Principal) (limit : Nat) :
    List UserProfile :=
  let caller_following := (lookupA st.follows caller).getD []
  let suggestions :=
    ((st.profiles.map Prod.snd).filter
        (fun p => decide (¬ p.id = caller ∧ ¬ p.id ∈ caller_following))).map
      (fun p => (p, suggestScore st caller p.id))
  let sorted := suggestions.insertionSort (fun a b => b.2 ≤ a.2)
  (sorted.take limit).map Prod.fst

/-- `get_connection_strength`. -/
def get_connection_strength (st : State) (caller : Principal) (user_id : Principal) : Nat :=
  match lookupA st.interaction_graph caller with
  | some interactions => (lookupA interactions user_id).getD 0
  | none => 0

/-- `get_trending_topics`: all topics stable-sorted by count descending,
truncated to `limit`. -/
def get_trending_topics (st : State) (limit : Nat) : List TrendingTopic :=
  (((st.trending_topics.map Prod.snd).insertionSort
    (fun a b => b.count ≤ a.count)).take limit)

-- Result inspection helper

/-- Whether a call result is an error. -/
def isErr {α : Type} : Except String α → Bool
  | Except.error _ => true
  | Except.ok _ => false

-- Spec-side accessors (formalising the spec's vocabulary)

/-- The caller's following list (`following_of` in the spec). -/
def followingOf (st : State) (u : Principal) : List Principal :=
  (lookupA st.follows u).getD []

/-- `get_affinity(user, hashtag)` of the spec, default 0. -/
def get_affinity (st : State) (u : Principal) (h : String) : Nat :=
  (lookupA ((lookupA st.content_affinity u).getD []) h).getD 0

/-- The spec's feed score: +10 for a followed author, plus summed hashtag
affinity, plus interaction strength toward the author. -/
def specPostScore (st : State) (viewer : Principal) (p : Post) : Nat :=
  (if p.author ∈ followingOf st viewer then 10 else 0)
  + (p.hashtags.map (get_affinity st viewer)).sum
  + get_connection_strength st viewer p.author

-- Association list lemmas

theorem lookupA_updateA_self {K V : Type} [DecidableEq K] (d : V) (f : V → V)
    (l : List (K × V)) (k : K) :
    lookupA (updateA d f l k) k = some (f ((lookupA l k).getD d)) := by
  induction l with
  | nil => simp [lookupA, updateA]
  | cons e rest ih =>
    obtain ⟨k', v⟩ := e
    by_cases h : k' = k
    · simp [lookupA, updateA, h]
    · simp [lookupA, updateA, h, ih]

theorem lookupA_updateA {K V : Type} [DecidableEq K] (d : V) (f : V → V)
    (l : List (K × V)) (k k' : K) :
    lookupA (updateA d f l k) k' =
      if k = k' then some (f ((lookupA l k).getD d)) else lookupA l k' := by
  induction l with
  | nil => by_cases h : k = k' <;> simp [updateA, lookupA, h]
  | cons e rest ih =>
    obtain ⟨k0, v⟩ := e
    by_cases h0 : k0 = k <;> by_cases h1 : k0 = k' <;> by_cases h2 : k = k' <;>
      simp_all [updateA, lookupA]

theorem lookupA_insertA_self {K V : Type} [DecidableEq K]
    (l : List (K × V)) (k : K) (v : V) :
    lookupA (insertA l k v) k = some v := by
  induction l with
  | nil => simp [lookupA, insertA]
  | cons e rest ih =>
    obtain ⟨k', w⟩ := e
    by_cases h : k' = k
    · simp [lookupA, insertA, h]
    · simp [lookupA, insertA, h, ih]

theorem lookupA_insertA {K V : Type} [DecidableEq K]
    (l : List (K × V)) (k k' : K) (v : V) :
    lookupA (insertA l k v) k' = if k = k' then some v else lookupA l k' := by
  induction l with
  | nil => by_cases h : k = k' <;> simp [insertA, lookupA, h]
  | cons e rest ih =>
    obtain ⟨k0, w⟩ := e
    by_cases h0 : k0 = k <;> by_cases h1 : k0 = k' <;> by_cases h2 : k = k' <;>
      simp_all [insertA, lookupA]

theorem lookupA_modifyA_self {K V : Type} [DecidableEq K] (f : V → V)
    (l : List (K × V)) (k : K) :
    lookupA (modifyA f l k) k = (lookupA l k).map f := by
  induction l with
  | nil => simp [lookupA, modifyA]
  | cons e rest ih =>
    obtain ⟨k', v⟩ := e
    by_cases h : k' = k
    · simp [lookupA, modifyA, h]
    · simp [lookupA, modifyA, h, ih]

theorem lookupA_modifyA {K V : Type} [DecidableEq K] (f : V → V)
    (l : List (K × V)) (k k' : K) :
    lookupA (modifyA f l k) k' =
      if k = k' then (lookupA l k).map f else lookupA l k' := by
  induction l with
  | nil => by_cases h : k = k' <;> simp [modifyA, lookupA, h]
  | cons e rest ih =>
    obtain ⟨k0, v⟩ := e
    by_cases h0 : k0 = k <;> by_cases h1 : k0 = k' <;> by_cases h2 : k = k' <;>
      simp_all [modifyA, lookupA]

theorem mem_of_lookupA_eq_some {K V : Type} [DecidableEq K]
    {l : List (K × V)} {k : K} {v : V} (h : lookupA l k = some v) : (k, v) ∈ l := by
  induction l with
  | nil => simp [lookupA] at h
  | cons e rest ih =>
    obtain ⟨k', w⟩ := e
    by_cases hk : k' = k
    · subst hk
      simp [lookupA] at h
      simp [h]
    · simp [lookupA, hk] at h
      exact List.mem_cons_of_mem _ (ih h)

theorem lookupA_eq_none_iff {K V : Type} [DecidableEq K]
    (l : List (K × V)) (k : K) :
    lookupA l k = none ↔ ¬ k ∈ l.map Prod.fst := by
  induction l with
  | nil => simp [lookupA]
  | cons e rest ih =>
    obtain ⟨k', w⟩ := e
    by_cases hk : k' = k
    · subst hk
      simp [lookupA]
    · simp [lookupA, hk, ih, Ne.symm hk, not_or]

-- Fold lemmas for the scoring loops

theorem foldl_affinity (ua : List (String × Nat)) :
    ∀ (hs : List String) (s : Nat),
      hs.foldl (fun acc h =>
        match lookupA ua h with
        | some hashtag_score => acc + hashtag_score
        | none => acc) s
      = s + (hs.map (fun h => (lookupA ua h).getD 0)).sum
  | [], s => by simp
  | h :: rest, s => by
    rw [List.foldl_cons, List.map_cons, List.sum_cons, foldl_affinity ua rest]
    cases hx : lookupA ua h
    · simp [hx]
    · simp only [hx, Option.getD_some]
      rw [Nat.add_assoc]

theorem foldl_minsum (pa : List (String × Nat)) :
    ∀ (ca : List (String × Nat)) (s : Nat),
      ca.foldl (fun acc e =>
        match lookupA pa e.1 with
        | some profile_score => acc + min e.2 profile_score
        | none => acc) s
      = s + (ca.map (fun e =>
          match lookupA pa e.1 with
          | some profile_score => min e.2 profile_score
          | none => 0)).sum
  | [], s => by simp
  | e :: rest, s => by
    rw [List.foldl_cons, List.map_cons, List.sum_cons, foldl_minsum pa rest]
    cases hx : lookupA pa e.1
    · simp [hx]
    · simp only [hx, Option.getD_some]
      rw [Nat.add_assoc]

theorem get_connection_strength_eq (st : State) (a t : Principal) :
    get_connection_strength st a t
      = (lookupA ((lookupA st.interaction_graph a).getD []) t).getD 0 := by
  unfold get_connection_strength
  cases lookupA st.interaction_graph a <;> simp [lookupA]

theorem match_strength (m : List (Principal × Nat)) (t : Principal) (s : Nat) :
    (match lookupA m t with
     | some strength => s + strength
     | none => s) = s + (lookupA m t).getD 0 := by
  cases lookupA m t <;> simp

theorem match_opt_zero (o : Option Nat) :
    (match o with | some v => v | none => 0) = o.getD 0 := by
  cases o <;> simp

/-- The score computed by the `get_personalized_feed` loop equals the spec's
arithmetic formula. -/
theorem postScore_eq_specPostScore (st : State) (viewer : Principal) (p : Post) :
    postScore st viewer p = specPostScore st viewer p := by
  unfold postScore specPostScore followingOf get_affinity
  rw [get_connection_strength_eq]
  cases hf : lookupA st.follows viewer <;>
    cases ha : lookupA st.content_affinity viewer <;>
      cases hg : lookupA st.interaction_graph viewer <;>
        simp only [hf, ha, hg, Option.getD_some, Option.getD_none, foldl_affinity,
          match_strength, match_opt_zero, lookupA] <;>
      simp

-- Sorting helpers for the two ranking pipelines

theorem pairwiseOfForall {α : Type} {R : α → α → Prop} :
    ∀ (l : List α), (∀ a b, R a b) → l.Pairwise R
  | [], _ => List.Pairwise.nil
  | a :: l, h => List.Pairwise.cons (fun b _ => h a b) (pairwiseOfForall l h)

theorem sorted_snd_desc {α : Type} (l : List (α × Nat)) :
    (l.insertionSort (fun a b => b.2 ≤ a.2)).Sorted (fun a b => b.2 ≤ a.2) := by
  haveI : IsTotal (α × Nat) (fun a b => b.2 ≤ a.2) := ⟨fun a b => Nat.le_total b.2 a.2⟩
  haveI : IsTrans (α × Nat) (fun a b => b.2 ≤ a.2) :=
    ⟨fun a b c h1 h2 => Nat.le_trans h2 h1⟩
  exact List.sorted_insertionSort _ _

/-- Output of the score/sort/truncate/project pipeline is ordered by
descending score. -/
theorem pairwise_score_desc {α : Type} (score : α → Nat) (l : List α) (limit : Nat) :
    (((((l.map (fun p => (p, score p))).insertionSort
        (fun a b => b.2 ≤ a.2)).take limit).map Prod.fst)).Pairwise
      (fun a b => score b ≤ score a) := by
  rw [List.pairwise_map]
  have hsorted := sorted_snd_desc (l.map (fun p => (p, score p)))
  have htake := hsorted.sublist (List.take_sublist limit _)
  refine htake.imp_of_mem ?_
  intro a b ha hb hr
  have ha' : a ∈ l.map (fun p => (p, score p)) := by
    have := List.mem_of_mem_take ha
    rwa [List.mem_insertionSort] at this
  have hb' : b ∈ l.map (fun p => (p, score p)) := by
    have := List.mem_of_mem_take hb
    rwa [List.mem_insertionSort] at this
  obtain ⟨pa, _, rfl⟩ := List.mem_map.1 ha'
  obtain ⟨pb, _, rfl⟩ := List.mem_map.1 hb'
  exact hr

/-- When every element scores the same, the stable sort leaves the list in
its original (store-iteration) order. -/
theorem pipeline_const_score {α : Type} (l : List α) (limit : Nat) (score : α → Nat)
    (hconst : ∀ p, score p = 0) :
    ((((l.map (fun p => (p, score p))).insertionSort
        (fun a b => b.2 ≤ a.2)).take limit).map Prod.fst) = l.take limit := by
  have hmap : l.map (fun p => (p, score p)) = l.map (fun p => (p, 0)) := by
    have : (fun p => (p, score p)) = fun p : α => (p, 0) :=
      funext fun p => by rw [hconst]
    rw [this]
  rw [hmap]
  have hsorted : (l.map (fun p : α => (p, 0))).Sorted
      (fun a b : α × Nat => b.2 ≤ a.2) :=
    List.pairwise_map.2 (pairwiseOfForall l (fun a b => Nat.le_refl 0))
  rw [List.Sorted.insertionSort_eq hsorted, ← List.map_take, List.map_map]
  have hid : (Prod.fst ∘ fun p : α => (p, 0)) = id := rfl
  rw [hid, List.map_id]

/-- `get_personalized_feed` rewritten as the spec-level pipeline driven by
`specPostScore`. -/
theorem get_personalized_feed_eq_pipeline (st : State) (c : Principal) (limit : Nat) :
    get_personalized_feed st c limit
      = ((((st.posts.map Prod.snd).map (fun p => (p, specPostScore st c p))).insertionSort
          (fun a b => b.2 ≤ a.2)).take limit).map Prod.fst := by
  unfold get_personalized_feed
  have hfun : (fun p => (p, postScore st c p)) = (fun p => (p, specPostScore st c p)) :=
    funext fun p => by rw [postScore_eq_specPostScore]
  rw [hfun]

theorem postScore_zero_of_no_signals (st : State) (v : Principal)
    (hf : lookupA st.follows v = none) (ha : lookupA st.content_affinity v = none)
    (hg : lookupA st.interaction_graph v = none) (p : Post) :
    postScore st v p = 0 := by
  unfold postScore
  simp [hf, ha, hg]

-- Concrete states for the feed-ordering counterexamples: two posts whose
-- store-iteration order is ascending in `created_at`.

def exPost1 : Post :=
  { id := 1, author := 10, content := "old", created_at := 1, likes := []
    comments := [], hashtags := [], post_type := PostType.Original, reshare_count := 0 }

def exPost2 : Post :=
  { id := 2, author := 11, content := "new", created_at := 2, likes := []
    comments := [], hashtags := [], post_type := PostType.Original, reshare_count := 0 }

def exFeedState : State :=
  { State.empty with posts := [(1, exPost1), (2, exPost2)] }

def exFeedSorted : State :=
  { State.empty with posts := [(2, exPost2), (1, exPost1)] }

/-- C2 (counterexample): a viewer (principal 0) with no follow,
interaction-graph or affinity entries, over a post store whose iteration
order is ascending in `created_at`, gets different sequences from
`get_personalized_feed` and `get_feed` — the personalized feed is NOT
ordered by `created_at` descending. -/
theorem C2_counterexample :
    lookupA exFeedState.follows 0 = none ∧
    lookupA exFeedState.interaction_graph 0 = none ∧
    lookupA exFeedState.content_affinity 0 = none ∧
    get_personalized_feed exFeedState 0 10 ≠ get_feed exFeedState 10 := by
  refine ⟨rfl, rfl, rfl, ?_⟩
  decide

/-- C2 (amended): for a viewer with no recorded signals every post scores 0,
so `get_personalized_feed` returns the first `limit` posts in store-iteration
order (the stable sort keeps the order); it coincides with `get_feed` exactly
when the store already iterates in `created_at`-descending order. -/
theorem C2_no_signal_feed (st : State) (v : Principal) (limit : Nat)
    (hf : lookupA st.follows v = none) (ha : lookupA st.content_affinity v = none)
    (hg : lookupA st.interaction_graph v = none) :
    get_personalized_feed st v limit = (st.posts.map Prod.snd).take limit ∧
    ((st.posts.map Prod.snd).Sorted (fun a b : Post => b.created_at ≤ a.created_at) →
      get_personalized_feed st v limit = get_feed st limit) := by
  have h1 : get_personalized_feed st v limit = (st.posts.map Prod.snd).take limit := by
    have hp := pipeline_const_score (st.posts.map Prod.snd) limit (postScore st v)
      (postScore_zero_of_no_signals st v hf ha hg)
    unfold get_personalized_feed
    exact hp
  refine ⟨h1, fun hsor => ?_⟩
  rw [h1]
  unfold get_feed
  rw [List.Sorted.insertionSort_eq hsor]

/-- C2 (witness): on a concrete no-signal state whose store iterates in
`created_at`-descending order the two feeds agree. -/
theorem C2_witness :
    get_personalized_feed exFeedSorted 0 10 = get_feed exFeedSorted 10 :=
  (C2_no_signal_feed exFeedSorted 0 10 rfl rfl rfl).2 (by decide)

/-- C3 (counterexample): two posts with equal score and ascending
`created_at` come back in store-iteration order — `get_personalized_feed`
does NOT order equal scores secondarily by `created_at` descending. -/
theorem C3_counterexample :
    get_personalized_feed exFeedState 0 10 = [exPost1, exPost2] ∧
    specPostScore exFeedState 0 exPost1 = specPostScore exFeedState 0 exPost2 ∧
    exPost1.created_at < exPost2.created_at ∧
    ¬ (get_personalized_feed exFeedState 0 10).Pairwise
        (fun a b => specPostScore exFeedState 0 b < specPostScore exFeedState 0 a ∨
          (specPostScore exFeedState 0 b = specPostScore exFeedState 0 a ∧
            b.created_at ≤ a.created_at)) := by
  refine ⟨by decide, by decide, by decide, ?_⟩
  decide

/-- C3 (amended): `get_personalized_feed` scores every stored post as
0, +10 when the viewer follows the author, plus summed hashtag affinity,
plus interaction strength toward the author (`specPostScore`), then
stable-sorts by score descending — ties keep store-iteration order, not
`created_at` order — and truncates to `limit`; the output is ordered by
descending score. -/
theorem C3_feed_scoring (st : State) (viewer : Principal) (limit : Nat) :
    get_personalized_feed st viewer limit
      = ((((st.posts.map Prod.snd).map (fun p => (p, specPostScore st viewer p))).insertionSort
          (fun a b => b.2 ≤ a.2)).take limit).map Prod.fst ∧
    (get_personalized_feed st viewer limit).Pairwise
      (fun a b => specPostScore st viewer b ≤ specPostScore st viewer a) :=
  ⟨get_personalized_feed_eq_pipeline st viewer limit, by
    rw [get_personalized_feed_eq_pipeline]
    exact pairwise_score_desc _ _ _⟩

/-- C1: for every mutating social action (create_post, reshare_post,
like_post, add_comment, follow_user, unfollow_user), whenever the call
returns an error the entire state is exactly as before the call — every
precondition failure leaves no partial mutation behind.  (Stated without
hypotheses: each call either succeeds or leaves the state unchanged.) -/
theorem C1_error_atomicity (st : State) (caller : Principal) (now : Nat)
    (content ccontent : String) (pid cpid : Nat) (fuid uuid : Principal) :
    (isErr (create_post st caller content now).1 = false ∨
      (create_post st caller content now).2 = st) ∧
    (isErr (reshare_post st caller pid now).1 = false ∨
      (reshare_post st caller pid now).2 = st) ∧
    (isErr (like_post st caller pid now).1 = false ∨
      (like_post st caller pid now).2 = st) ∧
    (isErr (add_comment st caller cpid ccontent now).1 = false ∨
      (add_comment st caller cpid ccontent now).2 = st) ∧
    (isErr (follow_user st caller fuid now).1 = false ∨
      (follow_user st caller fuid now).2 = st) ∧
    (isErr (unfollow_user st caller uuid).1 = false ∨
      (unfollow_user st caller uuid).2 = st) := by
  refine ⟨?_, ?_, ?_, ?_, ?_, ?_⟩
  · left
    simp [create_post, create_post_internal, isErr]
  · cases hl : lookupA st.posts pid with
    | none => right; simp [reshare_post, hl]
    | some p => left; simp [reshare_post, hl, create_post_internal, isErr]
  · cases hl : lookupA st.posts pid with
    | none => right; simp [like_post, hl]
    | some p =>
      by_cases hm : caller ∈ p.likes
      · right; simp [like_post, hl, hm]
      · left; simp [like_post, hl, hm, isErr]
  · left
    cases hl : lookupA st.posts cpid with
    | none => simp [add_comment, isErr, hl]
    | some p => simp [add_comment, isErr, hl]
  · by_cases he : caller = fuid
    · right; simp [follow_user, he]
    · by_cases hm : fuid ∈ (lookupA st.follows caller).getD []
      · right; simp [follow_user, he, hm]
      · left; simp [follow_user, he, hm, isErr]
  · cases hl : lookupA st.follows caller with
    | none => right; simp [unfollow_user, hl]
    | some following =>
      by_cases hm : uuid ∈ following
      · left; simp [unfollow_user, hl, hm, isErr]
      · right; simp [unfollow_user, hl, hm]

/-- Reachable-state well-formedness: follow lists and affinity key lists hold
no duplicates (the guarded push in `follow_user` and the `entry`-based map
updates never create duplicates). -/
def WF (st : State) : Prop :=
  (∀ e ∈ st.follows, e.2.Nodup) ∧
  (∀ e ∈ st.content_affinity, (e.2.map Prod.fst).Nodup)

theorem followingOf_nodup (st : State) (hwf : WF st) (u : Principal) :
    (followingOf st u).Nodup := by
  unfold followingOf
  cases hl : lookupA st.follows u with
  | none => simp
  | some l =>
    simpa using hwf.1 (u, l) (mem_of_lookupA_eq_some hl)

theorem mutual_count_eq (cf uf : List Principal) (h : cf.Nodup) :
    (cf.filter (fun u => decide (u ∈ uf))).length
      = (cf.toFinset ∩ uf.toFinset).card := by
  rw [← List.toFinset_card_of_nodup (h.filter _)]
  congr 1
  ext x
  simp [List.mem_filter]

theorem shared_sum_eq (pa : List (String × Nat)) :
    ∀ ca : List (String × Nat), (ca.map Prod.fst).Nodup →
      (ca.map (fun e =>
          match lookupA pa e.1 with
          | some profile_score => min e.2 profile_score
          | none => 0)).sum
        = Finset.sum ((ca.map Prod.fst).toFinset ∩ (pa.map Prod.fst).toFinset)
            (fun h => min ((lookupA ca h).getD 0) ((lookupA pa h).getD 0))
  | [], _ => by simp
  | (h0, v0) :: rest, hnd => by
    have hnd' : ¬ h0 ∈ rest.map Prod.fst ∧ (rest.map Prod.fst).Nodup :=
      List.nodup_cons.1 hnd
    have hnotin : ¬ h0 ∈ rest.map Prod.fst := hnd'.1
    have hndrest : (rest.map Prod.fst).Nodup := hnd'.2
    rw [List.map_cons, List.sum_cons, shared_sum_eq pa rest hndrest]
    have hcongr : Finset.sum ((rest.map Prod.fst).toFinset ∩ (pa.map Prod.fst).toFinset)
        (fun h => min ((lookupA rest h).getD 0) ((lookupA pa h).getD 0))
        = Finset.sum ((rest.map Prod.fst).toFinset ∩ (pa.map Prod.fst).toFinset)
          (fun h => min ((lookupA ((h0, v0) :: rest) h).getD 0) ((lookupA pa h).getD 0)) := by
      refine Finset.sum_congr rfl ?_
      intro h hmem
      have hne : ¬ h0 = h := by
        intro he
        subst he
        exact hnotin (List.mem_toFinset.1 (Finset.mem_inter.1 hmem).1)
      simp [lookupA, hne]
    by_cases hp : h0 ∈ pa.map Prod.fst
    · have hpf : h0 ∈ (pa.map Prod.fst).toFinset := List.mem_toFinset.2 hp
      have hset : ((h0, v0) :: rest).map Prod.fst
          = h0 :: rest.map Prod.fst := by simp
      rw [hset, List.toFinset_cons, Finset.insert_inter_of_mem hpf,
        Finset.sum_insert (by
          intro hc
          exact hnotin (List.mem_toFinset.1 (Finset.mem_inter.1 hc).1)),
        ← hcongr]
      have hsome : ¬ lookupA pa h0 = none := by
        rw [lookupA_eq_none_iff]
        simpa using hp
      cases hpa : lookupA pa h0 with
      | none => exact absurd hpa hsome
      | some w => simp [lookupA, hpa]
    · have hpf : ¬ h0 ∈ (pa.map Prod.fst).toFinset := by
        simpa using hp
      have hset : ((h0, v0) :: rest).map Prod.fst
          = h0 :: rest.map Prod.fst := by simp
      rw [hset, List.toFinset_cons, Finset.insert_inter_of_not_mem hpf, ← hcongr]
      have hnone : lookupA pa h0 = none := by
        rw [lookupA_eq_none_iff]
        simpa using hp
      simp [hnone]

def specMutualCount (st : State) (a b : Principal) : Nat :=
  ((followingOf st a).toFinset ∩ (followingOf st b).toFinset).card

def affinityKeys (st : State) (u : Principal) : List String :=
  ((lookupA st.content_affinity u).getD []).map Prod.fst

/-- The spec's shared-interest measure: sum over hashtags common to both
users' affinity maps of the minimum of the two scores. -/
def specSharedInterest (st : State) (a b : Principal) : Nat :=
  Finset.sum ((affinityKeys st a).toFinset ∩ (affinityKeys st b).toFinset)
    (fun h => min (get_affinity st a h) (get_affinity st b h))

/-- The spec's connection-suggestion score. -/
def specSuggestScore (st : State) (caller cand : Principal) : Nat :=
  10 * specMutualCount st caller cand + specSharedInterest st caller cand

theorem suggestScore_eq_spec (st : State) (hwf : WF st) (c cand : Principal) :
    suggestScore st c cand = specSuggestScore st c cand := by
  unfold suggestScore specSuggestScore specMutualCount specSharedInterest
    get_mutual_connections affinityKeys get_affinity
  dsimp only
  have hfol : ∀ u : Principal, (lookupA st.follows u).getD [] = followingOf st u :=
    fun u => rfl
  rw [hfol cand, hfol c, mutual_count_eq _ _ (followingOf_nodup st hwf c), Nat.mul_comm]
  cases ha : lookupA st.content_affinity c with
  | none => simp [followingOf]
  | some ca =>
    cases hb : lookupA st.content_affinity cand with
    | none => simp [followingOf]
    | some pa =>
      have hnd : (ca.map Prod.fst).Nodup :=
        hwf.2 (c, ca) (mem_of_lookupA_eq_some ha)
      dsimp only
      rw [foldl_minsum, shared_sum_eq pa ca hnd]
      simp [followingOf]

theorem mem_pipeline {α : Type} (score : α → Nat) (l : List α) (limit : Nat) {x : α}
    (hx : x ∈ ((((l.map (fun p => (p, score p))).insertionSort
        (fun a b => b.2 ≤ a.2)).take limit).map Prod.fst)) : x ∈ l := by
  obtain ⟨e, he, hfst⟩ := List.mem_map.1 hx
  have hmem := List.mem_of_mem_take he
  rw [List.mem_insertionSort] at hmem
  obtain ⟨p, hp, hpe⟩ := List.mem_map.1 hmem
  cases hpe
  cases hfst
  exact hp

/-- C4: `suggest_connections` returns only profiles that are neither the
caller nor already followed, each scored as 10 times the mutual-following
intersection size plus the min-summed affinity over common hashtags
(`specSuggestScore`), stable-sorted by score descending and truncated to
`limit` (on well-formed states whose follow and affinity lists are
duplicate-free). -/
theorem C4_suggest_connections (st : State) (c : Principal) (limit : Nat) (hwf : WF st) :
    suggest_connections st c limit
      = (((((st.profiles.map Prod.snd).filter
            (fun p => decide (¬ p.id = c ∧ ¬ p.id ∈ followingOf st c))).map
            (fun p => (p, specSuggestScore st c p.id))).insertionSort
          (fun a b => b.2 ≤ a.2)).take limit).map Prod.fst ∧
    (∀ p ∈ suggest_connections st c limit, ¬ p.id = c ∧ ¬ p.id ∈ followingOf st c) ∧
    (suggest_connections st c limit).Pairwise
      (fun a b => specSuggestScore st c b.id ≤ specSuggestScore st c a.id) := by
  have hpipe : suggest_connections st c limit
      = (((((st.profiles.map Prod.snd).filter
            (fun p => decide (¬ p.id = c ∧ ¬ p.id ∈ followingOf st c))).map
            (fun p => (p, specSuggestScore st c p.id))).insertionSort
          (fun a b => b.2 ≤ a.2)).take limit).map Prod.fst := by
    unfold suggest_connections
    dsimp only
    have hfol : (lookupA st.follows c).getD [] = followingOf st c := rfl
    rw [hfol]
    have hfun : (fun p : UserProfile => (p, suggestScore st c p.id))
        = (fun p => (p, specSuggestScore st c p.id)) :=
      funext fun p => by rw [suggestScore_eq_spec st hwf]
    rw [hfun]
  refine ⟨hpipe, ?_, ?_⟩
  · intro p hp
    rw [hpipe] at hp
    have hmem := mem_pipeline _ _ _ hp
    have hflt := List.mem_filter.1 hmem
    simpa using hflt.2
  · rw [hpipe]
    exact pairwise_score_desc (fun p : UserProfile => specSuggestScore st c p.id)
      ((st.profiles.map Prod.snd).filter
        (fun p => decide (¬ p.id = c ∧ ¬ p.id ∈ followingOf st c))) limit

def wProf (i : Nat) : UserProfile :=
  { id := i, username := "u", bio := [], avatar_url := [], followers_count := 0
    following_count := 0, created_at := 0 }

def wSt : State :=
  { State.empty with
    profiles := [(1, wProf 1), (2, wProf 2), (3, wProf 3)]
    follows := [(1, [2]), (2, [3]), (3, [2])]
    content_affinity := [(1, [("#a", 2)]), (3, [("#a", 5)])] }

/-- C4 (witness): on a concrete well-formed state the suggestions for
caller 1 avoid the caller and the already-followed account. -/
theorem C4_witness :
    WF wSt ∧ ∀ p ∈ suggest_connections wSt 1 5, ¬ p.id = 1 ∧ ¬ p.id ∈ followingOf wSt 1 :=
  ⟨by unfold WF; decide, (C4_suggest_connections wSt 1 5 (by unfold WF; decide)).2.1⟩

theorem strength_update (g : List (Principal × List (Principal × Nat)))
    (a' t' : Principal) (w : Nat) (a t : Principal) :
    (lookupA ((lookupA (update_interaction_graph g a' t' w) a).getD []) t).getD 0
      = (lookupA ((lookupA g a).getD []) t).getD 0
        + (if a' = a ∧ t' = t then w else 0) := by
  unfold update_interaction_graph
  rw [lookupA_updateA]
  by_cases ha : a' = a
  · subst ha
    rw [if_pos rfl, Option.getD_some, lookupA_updateA]
    by_cases ht : t' = t
    · subst ht
      simp
    · simp [ht]
  · simp [ha]

/-- All `record_interaction` style updates in sequence. -/
def recordMany (g : List (Principal × List (Principal × Nat)))
    (recs : List (Principal × Principal × Nat)) :
    List (Principal × List (Principal × Nat)) :=
  recs.foldl (fun g r => update_interaction_graph g r.1 r.2.1 r.2.2) g

theorem strength_recordMany (a t : Principal) :
    ∀ (recs : List (Principal × Principal × Nat))
      (g : List (Principal × List (Principal × Nat))),
      (lookupA ((lookupA (recordMany g recs) a).getD []) t).getD 0
        = (lookupA ((lookupA g a).getD []) t).getD 0
          + ((recs.filter (fun r => decide (r.1 = a ∧ r.2.1 = t))).map
              (fun r => r.2.2)).sum
  | [], g => by simp [recordMany]
  | r :: rest, g => by
    have hstep : recordMany g (r :: rest)
        = recordMany (update_interaction_graph g r.1 r.2.1 r.2.2) rest := by
      simp [recordMany]
    rw [hstep, strength_recordMany a t rest, strength_update]
    by_cases hc : r.1 = a ∧ r.2.1 = t
    · simp [hc]
      omega
    · simp [hc]

theorem follow_strength (st : State) (caller fuid : Principal) (now : Nat)
    (hok : (follow_user st caller fuid now).1 = Except.ok ()) :
    get_connection_strength (follow_user st caller fuid now).2 caller fuid
      = get_connection_strength st caller fuid + 5 := by
  by_cases he : caller = fuid
  · simp [follow_user, he] at hok
  · by_cases hm : fuid ∈ (lookupA st.follows caller).getD []
    · simp [follow_user, he, hm] at hok
    · rw [get_connection_strength_eq, get_connection_strength_eq]
      simp only [follow_user]
      rw [if_neg he, if_neg hm]
      dsimp only
      rw [strength_update]
      simp

theorem like_strength (st : State) (caller : Principal) (pid : Nat) (now : Nat)
    (post : Post) (hp : lookupA st.posts pid = some post) (hm : ¬ caller ∈ post.likes) :
    get_connection_strength (like_post st caller pid now).2 caller post.author
      = get_connection_strength st caller post.author + 1 := by
  rw [get_connection_strength_eq, get_connection_strength_eq]
  simp only [like_post, hp, if_neg hm]
  rw [strength_update]
  simp

theorem comment_strength (st : State) (caller : Principal) (pid : Nat)
    (content : String) (now : Nat) (post : Post)
    (hp : lookupA st.posts pid = some post) :
    get_connection_strength (add_comment st caller pid content now).2 caller post.author
      = get_connection_strength st caller post.author + 2 := by
  rw [get_connection_strength_eq, get_connection_strength_eq]
  simp only [add_comment, hp]
  rw [strength_update]
  simp

/-- C5: `get_connection_strength(actor, target)` equals the sum of all
weights ever recorded for the pair (0 when nothing was recorded, never an
error); the actions record fixed weights follow = 5, comment = 2, like = 1,
so a follow followed by one like yields strength 6. -/
theorem C5_connection_strength (st : State)
    (recs : List (Principal × Principal × Nat)) (a t caller fuid : Principal)
    (pid : Nat) (content : String) (now now2 : Nat) :
    (get_connection_strength { st with interaction_graph := recordMany [] recs } a t
      = ((recs.filter (fun r => decide (r.1 = a ∧ r.2.1 = t))).map (fun r => r.2.2)).sum) ∧
    (get_connection_strength { st with interaction_graph := [] } a t = 0) ∧
    ((follow_user st caller fuid now).1 = Except.ok () →
      get_connection_strength (follow_user st caller fuid now).2 caller fuid
        = get_connection_strength st caller fuid + 5) ∧
    (∀ post, lookupA st.posts pid = some post → ¬ caller ∈ post.likes →
      get_connection_strength (like_post st caller pid now).2 caller post.author
        = get_connection_strength st caller post.author + 1) ∧
    (∀ post, lookupA st.posts pid = some post →
      get_connection_strength (add_comment st caller pid content now).2 caller post.author
        = get_connection_strength st caller post.author + 2) ∧
    (∀ post, (follow_user st caller fuid now).1 = Except.ok () →
      lookupA (follow_user st caller fuid now).2.posts pid = some post →
      post.author = fuid → ¬ caller ∈ post.likes →
      get_connection_strength st caller fuid = 0 →
      get_connection_strength
        (like_post (follow_user st caller fuid now).2 caller pid now2).2 caller fuid
        = 6) := by
  refine ⟨?_, ?_, follow_strength st caller fuid now,
    fun post hp hm => like_strength st caller pid now post hp hm,
    fun post hp => comment_strength st caller pid content now post hp, ?_⟩
  · rw [get_connection_strength_eq]
    dsimp only
    rw [strength_recordMany]
    simp [lookupA]
  · rw [get_connection_strength_eq]
    simp [lookupA]
  · intro post hok hp hauth hm h0
    have h5 := follow_strength st caller fuid now hok
    have h1 := like_strength (follow_user st caller fuid now).2 caller pid now2 post hp hm
    rw [hauth] at h1
    rw [h1, h5, h0]

def wPost : Post :=
  { id := 1, author := 2, content := "x", created_at := 0, likes := []
    comments := [], hashtags := [], post_type := PostType.Original, reshare_count := 0 }

def w5St : State := { State.empty with posts := [(1, wPost)] }

/-- C5 (witness): concretely, principal 1 follows principal 2 and then
likes 2's post; the resulting connection strength is 6. -/
theorem C5_witness :
    get_connection_strength (like_post (follow_user w5St 1 2 0).2 1 1 0).2 1 2 = 6 :=
  (C5_connection_strength w5St [] 0 0 1 2 1 "c" 0 0).2.2.2.2.2 wPost rfl
    (by decide) (by decide) (by decide) (by decide)

/-- The count stored for a hashtag (0 when absent). -/
def topicCount (topics : List (String × TrendingTopic)) (h : String) : Nat :=
  ((lookupA topics h).map TrendingTopic.count).getD 0

/-- The `last_used` timestamp stored for a hashtag. -/
def topicLastUsed (topics : List (String × TrendingTopic)) (h : String) : Option Nat :=
  (lookupA topics h).map TrendingTopic.last_used

theorem topicCount_update (h : String) :
    ∀ (tags : List String) (topics : List (String × TrendingTopic)) (now : Nat),
      topicCount (update_trending_topics topics tags now) h
        = topicCount topics h + tags.count h
  | [], topics, now => by simp [update_trending_topics]
  | t :: rest, topics, now => by
    have hstep : update_trending_topics topics (t :: rest) now
        = update_trending_topics
            (updateA { hashtag := t, count := 0, last_used := now }
              (fun tp => { tp with count := tp.count + 1, last_used := now }) topics t)
            rest now := by
      simp [update_trending_topics]
    rw [hstep, topicCount_update h rest]
    unfold topicCount
    rw [lookupA_updateA]
    by_cases ht : t = h
    · subst ht
      rw [if_pos rfl, List.count_cons]
      cases hx : lookupA topics t <;> simp <;> omega
    · rw [if_neg ht, List.count_cons]
      have : (t == h) = false := beq_eq_false_iff_ne.2 ht
      simp [this]

theorem lookupA_update_trending_not_mem (h : String) :
    ∀ (tags : List String) (topics : List (String × TrendingTopic)) (now : Nat),
      ¬ h ∈ tags →
      lookupA (update_trending_topics topics tags now) h = lookupA topics h
  | [], topics, now, _ => by simp [update_trending_topics]
  | t :: rest, topics, now, hmem => by
    have hstep : update_trending_topics topics (t :: rest) now
        = update_trending_topics
            (updateA { hashtag := t, count := 0, last_used := now }
              (fun tp => { tp with count := tp.count + 1, last_used := now }) topics t)
            rest now := by
      simp [update_trending_topics]
    have hne : ¬ t = h := fun he => hmem (he ▸ List.mem_cons_self t rest)
    rw [hstep,
      lookupA_update_trending_not_mem h rest _ now
        (fun hc => hmem (List.mem_cons_of_mem t hc)),
      lookupA_updateA, if_neg hne]

theorem topicLastUsed_update (h : String) :
    ∀ (tags : List String) (topics : List (String × TrendingTopic)) (now : Nat),
      h ∈ tags →
      topicLastUsed (update_trending_topics topics tags now) h = some now
  | [], _, _, hmem => absurd hmem (List.not_mem_nil h)
  | t :: rest, topics, now, hmem => by
    have hstep : update_trending_topics topics (t :: rest) now
        = update_trending_topics
            (updateA { hashtag := t, count := 0, last_used := now }
              (fun tp => { tp with count := tp.count + 1, last_used := now }) topics t)
            rest now := by
      simp [update_trending_topics]
    rw [hstep]
    by_cases hr : h ∈ rest
    · exact topicLastUsed_update h rest _ now hr
    · have ht : t = h := by
        cases List.mem_cons.1 hmem with
        | inl hh => exact hh.symm
        | inr hh => exact absurd hh hr
      unfold topicLastUsed
      rw [lookupA_update_trending_not_mem h rest _ now hr, lookupA_updateA, if_pos ht]
      simp

/-- C6: each hashtag occurrence in a recording call — duplicates included —
increments that hashtag's trending count by exactly 1 and sets its
`last_used` to the current timestamp; `get_trending_topics` returns stored
topics ordered by count descending, truncated to `limit`. -/
theorem C6_trending (topics : List (String × TrendingTopic)) (tags : List String)
    (now : Nat) (h : String) (st : State) (limit : Nat) :
    (topicCount (update_trending_topics topics tags now) h
      = topicCount topics h + tags.count h) ∧
    (h ∈ tags → topicLastUsed (update_trending_topics topics tags now) h = some now) ∧
    (get_trending_topics st limit).Pairwise
      (fun a b : TrendingTopic => b.count ≤ a.count) ∧
    (get_trending_topics st limit).length = min limit st.trending_topics.length ∧
    (∀ x ∈ get_trending_topics st limit, x ∈ st.trending_topics.map Prod.snd) := by
  refine ⟨topicCount_update h tags topics now, topicLastUsed_update h tags topics now,
    ?_, ?_, ?_⟩
  · have hsorted : ((st.trending_topics.map Prod.snd).insertionSort
        (fun a b => b.count ≤ a.count)).Sorted
          (fun a b : TrendingTopic => b.count ≤ a.count) := by
      haveI : IsTotal TrendingTopic (fun a b => b.count ≤ a.count) :=
        ⟨fun a b => Nat.le_total _ _⟩
      haveI : IsTrans TrendingTopic (fun a b => b.count ≤ a.count) :=
        ⟨fun a b c h1 h2 => Nat.le_trans h2 h1⟩
      exact List.sorted_insertionSort _ _
    exact hsorted.sublist (List.take_sublist _ _)
  · simp [get_trending_topics]
  · intro x hx
    have := List.mem_of_mem_take hx
    rwa [List.mem_insertionSort] at this

/-- C6 (witness): recording `["#a", "#b", "#a"]` at time 7 into an empty
store gives `#a` count 2 and last_used 7. -/
theorem C6_witness :
    topicCount (update_trending_topics [] ["#a", "#b", "#a"] 7) "#a" = 2 ∧
    topicLastUsed (update_trending_topics [] ["#a", "#b", "#a"] 7) "#a" = some 7 :=
  ⟨by decide,
    (C6_trending [] ["#a", "#b", "#a"] 7 "#a" State.empty 5).2.1 (by decide)⟩

/-- Monotone evolution of a nested weight map: no stored weight decreases and
no entry disappears. -/
def gMono (g g' : List (Principal × List (Principal × Nat))) : Prop :=
  ∀ a t, (lookupA ((lookupA g a).getD []) t).getD 0
      ≤ (lookupA ((lookupA g' a).getD []) t).getD 0
    ∧ (lookupA ((lookupA g a).getD []) t).isSome
      ≤ (lookupA ((lookupA g' a).getD []) t).isSome

/-- Monotone evolution of a nested affinity map. -/
def aMono (f f' : List (Principal × List (String × Nat))) : Prop :=
  ∀ u h, (lookupA ((lookupA f u).getD []) h).getD 0
      ≤ (lookupA ((lookupA f' u).getD []) h).getD 0
    ∧ (lookupA ((lookupA f u).getD []) h).isSome
      ≤ (lookupA ((lookupA f' u).getD []) h).isSome

/-- The interaction graph and the content-affinity index both evolve
monotonically between two states. -/
def SignalMono (st st' : State) : Prop :=
  gMono st.interaction_graph st'.interaction_graph ∧
  aMono st.content_affinity st'.content_affinity

theorem gMono_refl (g : List (Principal × List (Principal × Nat))) : gMono g g :=
  fun _ _ => ⟨Nat.le_refl _, le_refl _⟩

theorem aMono_refl (f : List (Principal × List (String × Nat))) : aMono f f :=
  fun _ _ => ⟨Nat.le_refl _, le_refl _⟩

theorem signalMono_of_eq {st st' : State}
    (hg : st'.interaction_graph = st.interaction_graph)
    (ha : st'.content_affinity = st.content_affinity) : SignalMono st st' := by
  constructor
  · rw [hg]
    exact gMono_refl _
  · rw [ha]
    exact aMono_refl _

theorem gHas_update (g : List (Principal × List (Principal × Nat)))
    (a' t' : Principal) (w : Nat) (a t : Principal) :
    (lookupA ((lookupA (update_interaction_graph g a' t' w) a).getD []) t).isSome
      = ((lookupA ((lookupA g a).getD []) t).isSome
          || (decide (a' = a) && decide (t' = t))) := by
  unfold update_interaction_graph
  rw [lookupA_updateA]
  by_cases ha : a' = a
  · subst ha
    rw [if_pos rfl, Option.getD_some, lookupA_updateA]
    by_cases ht : t' = t
    · subst ht
      simp
    · simp [ht]
  · simp [ha]

theorem gMono_update (g : List (Principal × List (Principal × Nat)))
    (a' t' : Principal) (w : Nat) :
    gMono g (update_interaction_graph g a' t' w) := by
  intro a t
  constructor
  · rw [strength_update]
    exact Nat.le_add_right _ _
  · rw [gHas_update]
    cases (lookupA ((lookupA g a).getD []) t).isSome <;> simp

theorem lookupA_fold_add (w : Nat) :
    ∀ (hs : List String) (m : List (String × Nat)) (h : String),
      (lookupA (hs.foldl (fun m h => updateA 0 (· + w) m h) m) h).getD 0
        = (lookupA m h).getD 0 + w * hs.count h
  | [], m, h => by simp
  | t :: rest, m, h => by
    rw [List.foldl_cons, lookupA_fold_add w rest, List.count_cons, lookupA_updateA]
    by_cases ht : t = h
    · subst ht
      rw [if_pos rfl, Option.getD_some]
      have hb : (t == t) = true := beq_self_eq_true t
      simp [hb]
      ring
    · have hb : (t == h) = false := beq_eq_false_iff_ne.2 ht
      rw [if_neg ht]
      simp [hb]

theorem lookupA_fold_isSome (w : Nat) :
    ∀ (hs : List String) (m : List (String × Nat)) (h : String),
      (lookupA (hs.foldl (fun m h => updateA 0 (· + w) m h) m) h).isSome
        = ((lookupA m h).isSome || decide (h ∈ hs))
  | [], m, h => by simp
  | t :: rest, m, h => by
    rw [List.foldl_cons, lookupA_fold_isSome w rest, lookupA_updateA]
    by_cases ht : t = h
    · subst ht
      rw [if_pos rfl]
      simp
    · rw [if_neg ht]
      have : ¬ h = t := fun he => ht he.symm
      simp [this]

theorem aVal_update (aff : List (Principal × List (String × Nat))) (u' : Principal)
    (tags : List String) (w : Nat) (u : Principal) (h : String) :
    (lookupA ((lookupA (update_content_affinity aff u' tags w) u).getD []) h).getD 0
      = (lookupA ((lookupA aff u).getD []) h).getD 0
        + (if u' = u then w * tags.count h else 0) := by
  unfold update_content_affinity
  rw [lookupA_updateA]
  by_cases hu : u' = u
  · subst hu
    rw [if_pos rfl, Option.getD_some, lookupA_fold_add, if_pos rfl]
  · simp [hu]

theorem aHas_update (aff : List (Principal × List (String × Nat))) (u' : Principal)
    (tags : List String) (w : Nat) (u : Principal) (h : String) :
    (lookupA ((lookupA (update_content_affinity aff u' tags w) u).getD []) h).isSome
      = ((lookupA ((lookupA aff u).getD []) h).isSome
          || (decide (u' = u) && decide (h ∈ tags))) := by
  unfold update_content_affinity
  rw [lookupA_updateA]
  by_cases hu : u' = u
  · subst hu
    rw [if_pos rfl, Option.getD_some, lookupA_fold_isSome]
    simp
  · simp [hu]

theorem aMono_update (aff : List (Principal × List (String × Nat))) (u' : Principal)
    (tags : List String) (w : Nat) :
    aMono aff (update_content_affinity aff u' tags w) := by
  intro u h
  constructor
  · rw [aVal_update]
    exact Nat.le_add_right _ _
  · rw [aHas_update]
    cases (lookupA ((lookupA aff u).getD []) h).isSome <;> simp

/-- C7: every exposed mutating operation evolves the interaction graph and
the content-affinity index monotonically — a weight already present never
decreases and its entry is never deleted; in particular `unfollow_user` and
`unlike_post` leave both stores completely unchanged. -/
theorem C7_signal_monotone (st : State) (caller uid : Principal)
    (v pid nid : Nat) (text content uname : String) (bio av : List String)
    (obio oav : Option (List String)) (now : Nat) :
    SignalMono st (increment_counter st).2 ∧
    SignalMono st (set_counter st v).2 ∧
    SignalMono st (add_todo st text).2 ∧
    SignalMono st (toggle_todo st nid).2 ∧
    SignalMono st (delete_todo st nid).2 ∧
    SignalMono st (create_profile st caller uname bio av now).2 ∧
    SignalMono st (update_profile st caller obio oav).2 ∧
    SignalMono st (create_post st caller content now).2 ∧
    SignalMono st (reshare_post st caller pid now).2 ∧
    SignalMono st (like_post st caller pid now).2 ∧
    SignalMono st (unlike_post st caller pid).2 ∧
    SignalMono st (add_comment st caller pid content now).2 ∧
    SignalMono st (follow_user st caller uid now).2 ∧
    SignalMono st (unfollow_user st caller uid).2 ∧
    SignalMono st (mark_notification_as_read st caller nid).2 ∧
    SignalMono st (mark_all_notifications_as_read st caller).2 ∧
    SignalMono st (send_message st caller uid content now).2 ∧
    SignalMono st (mark_messages_as_read st caller uid).2 ∧
    ((unfollow_user st caller uid).2.interaction_graph = st.interaction_graph ∧
      (unfollow_user st caller uid).2.content_affinity = st.content_affinity) ∧
    ((unlike_post st caller pid).2.interaction_graph = st.interaction_graph ∧
      (unlike_post st caller pid).2.content_affinity = st.content_affinity) := by
  have hunf : (unfollow_user st caller uid).2.interaction_graph = st.interaction_graph ∧
      (unfollow_user st caller uid).2.content_affinity = st.content_affinity := by
    cases hl : lookupA st.follows caller with
    | none => exact ⟨by simp [unfollow_user, hl], by simp [unfollow_user, hl]⟩
    | some following =>
      by_cases hm : uid ∈ following
      · exact ⟨by simp [unfollow_user, hl, hm], by simp [unfollow_user, hl, hm]⟩
      · exact ⟨by simp [unfollow_user, hl, hm], by simp [unfollow_user, hl, hm]⟩
  have hunl : (unlike_post st caller pid).2.interaction_graph = st.interaction_graph ∧
      (unlike_post st caller pid).2.content_affinity = st.content_affinity := by
    cases hl : lookupA st.posts pid with
    | none => exact ⟨by simp [unlike_post, hl], by simp [unlike_post, hl]⟩
    | some p =>
      by_cases hm : caller ∈ p.likes
      · exact ⟨by simp [unlike_post, hl, hm], by simp [unlike_post, hl, hm]⟩
      · exact ⟨by simp [unlike_post, hl, hm], by simp [unlike_post, hl, hm]⟩
  refine ⟨signalMono_of_eq rfl rfl, signalMono_of_eq rfl rfl, signalMono_of_eq rfl rfl,
    signalMono_of_eq rfl rfl, signalMono_of_eq rfl rfl, ?_, ?_, ?_, ?_, ?_,
    signalMono_of_eq hunl.1 hunl.2, ?_, ?_, signalMono_of_eq hunf.1 hunf.2,
    ?_, signalMono_of_eq rfl rfl, ?_, signalMono_of_eq rfl rfl, hunf, hunl⟩
  · by_cases hc : (lookupA st.profiles caller).isSome = true
    · exact signalMono_of_eq (by simp [create_profile, hc]) (by simp [create_profile, hc])
    · exact signalMono_of_eq (by simp [create_profile, hc]) (by simp [create_profile, hc])
  · cases hm : lookupA st.profiles caller with
    | none =>
      exact signalMono_of_eq (by simp [update_profile, hm]) (by simp [update_profile, hm])
    | some p =>
      exact signalMono_of_eq (by simp [update_profile, hm]) (by simp [update_profile, hm])
  · refine ⟨?_, ?_⟩
    · have hg : (create_post st caller content now).2.interaction_graph
          = st.interaction_graph := rfl
      rw [hg]
      exact gMono_refl _
    · have ha : (create_post st caller content now).2.content_affinity
          = update_content_affinity st.content_affinity caller
              (extract_hashtags content) 1 := rfl
      rw [ha]
      exact aMono_update _ _ _ _
  · cases hl : lookupA st.posts pid with
    | none =>
      exact signalMono_of_eq (by simp [reshare_post, hl]) (by simp [reshare_post, hl])
    | some p =>
      refine ⟨?_, ?_⟩
      · have hg : (reshare_post st caller pid now).2.interaction_graph
            = st.interaction_graph := by
          simp [reshare_post, hl, create_post_internal]
        rw [hg]
        exact gMono_refl _
      · have ha : (reshare_post st caller pid now).2.content_affinity
            = update_content_affinity st.content_affinity caller
                (extract_hashtags ("Reshared: " ++ p.content)) 1 := by
          simp [reshare_post, hl, create_post_internal]
        rw [ha]
        exact aMono_update _ _ _ _
  · cases hl : lookupA st.posts pid with
    | none => exact signalMono_of_eq (by simp [like_post, hl]) (by simp [like_post, hl])
    | some p =>
      by_cases hm : caller ∈ p.likes
      · exact signalMono_of_eq (by simp [like_post, hl, hm]) (by simp [like_post, hl, hm])
      · refine ⟨?_, ?_⟩
        · have hg : (like_post st caller pid now).2.interaction_graph
              = update_interaction_graph st.interaction_graph caller p.author 1 := by
            simp [like_post, hl, hm]
          rw [hg]
          exact gMono_update _ _ _ _
        · have ha : (like_post st caller pid now).2.content_affinity
              = st.content_affinity := by
            simp [like_post, hl, hm]
          rw [ha]
          exact aMono_refl _
  · cases hl : lookupA st.posts pid with
    | none =>
      exact signalMono_of_eq (by simp [add_comment, hl]) (by simp [add_comment, hl])
    | some p =>
      refine ⟨?_, ?_⟩
      · have hg : (add_comment st caller pid content now).2.interaction_graph
            = update_interaction_graph st.interaction_graph caller p.author 2 := by
          simp [add_comment, hl]
        rw [hg]
        exact gMono_update _ _ _ _
      · have ha : (add_comment st caller pid content now).2.content_affinity
            = st.content_affinity := by
          simp [add_comment, hl]
        rw [ha]
        exact aMono_refl _
  · by_cases he : caller = uid
    · exact signalMono_of_eq (by simp [follow_user, he]) (by simp [follow_user, he])
    · by_cases hm : uid ∈ (lookupA st.follows caller).getD []
      · exact signalMono_of_eq (by simp [follow_user, he, hm]) (by simp [follow_user, he, hm])
      · refine ⟨?_, ?_⟩
        · have hg : (follow_user st caller uid now).2.interaction_graph
              = update_interaction_graph st.interaction_graph caller uid 5 := by
            simp [follow_user, he, hm]
          rw [hg]
          exact gMono_update _ _ _ _
        · have ha : (follow_user st caller uid now).2.content_affinity
              = st.content_affinity := by
            simp [follow_user, he, hm]
          rw [ha]
          exact aMono_refl _
  · cases hl : lookupA st.notifications nid with
    | none =>
      exact signalMono_of_eq (by simp [mark_notification_as_read, hl])
        (by simp [mark_notification_as_read, hl])
    | some n =>
      by_cases hr : n.recipient = caller
      · exact signalMono_of_eq (by simp [mark_notification_as_read, hl, hr])
          (by simp [mark_notification_as_read, hl, hr])
      · exact signalMono_of_eq (by simp [mark_notification_as_read, hl, hr])
          (by simp [mark_notification_as_read, hl, hr])
  · by_cases he : caller = uid
    · exact signalMono_of_eq (by simp [send_message, he]) (by simp [send_message, he])
    · exact signalMono_of_eq (by simp [send_message, he]) (by simp [send_message, he])

/-- Extracts the Ok payload of a post-returning call (dummy when Err). -/
def okPost (r : Except String Post) : Post :=
  match r with
  | Except.ok p => p
  | Except.error _ => default

/-- C8: `create_post` (and `reshare_post` via internal post creation) sets
the new post's hashtags to exactly the whitespace-separated tokens of the
content that start with `'#'` — case-sensitively, in order of occurrence —
and adds weight 1 to the author's affinity score once per occurrence while
recording one trending usage per occurrence. -/
theorem C8_hashtag_extraction (st : State) (author : Principal) (content : String)
    (pt : PostType) (now : Nat) (h : String) (pid : Nat) :
    (okPost (create_post st author content now).1).hashtags
      = extract_hashtags content ∧
    (okPost (create_post_internal st author content pt now).1).hashtags
      = extract_hashtags content ∧
    (∀ w ∈ extract_hashtags content, isHashtagToken w.data = true) ∧
    (extract_hashtags content).Sublist (split_whitespace content) ∧
    ((lookupA ((lookupA (create_post_internal st author content pt now).2.content_affinity
        author).getD []) h).getD 0
      = (lookupA ((lookupA st.content_affinity author).getD []) h).getD 0
        + (extract_hashtags content).count h) ∧
    (topicCount (create_post_internal st author content pt now).2.trending_topics h
      = topicCount st.trending_topics h + (extract_hashtags content).count h) ∧
    (∀ orig, lookupA st.posts pid = some orig →
      (okPost (reshare_post st author pid now).1).hashtags
        = extract_hashtags ("Reshared: " ++ orig.content)) := by
  refine ⟨rfl, rfl, ?_, ?_, ?_, ?_, ?_⟩
  · intro w hw
    have hw' : w ∈ (split_whitespace content).filter (fun w => isHashtagToken w.data) := hw
    exact (List.mem_filter.1 hw').2
  · exact List.filter_sublist (split_whitespace content)
  · have ha : (create_post_internal st author content pt now).2.content_affinity
        = update_content_affinity st.content_affinity author
            (extract_hashtags content) 1 := rfl
    rw [ha, aVal_update, if_pos rfl, Nat.one_mul]
  · have ht : (create_post_internal st author content pt now).2.trending_topics
        = update_trending_topics st.trending_topics (extract_hashtags content) now := rfl
    rw [ht, topicCount_update]
  · intro orig hp
    simp [reshare_post, hp, create_post_internal, okPost]

/-- C8 (witness): a concrete content string yields its `#`-tokens with
duplicates preserved, and a concrete reshare extracts from the prefixed
content. -/
theorem C8_witness :
    extract_hashtags "hello #Rust world #ai #Rust" = ["#Rust", "#ai", "#Rust"] ∧
    (lookupA ((lookupA (create_post State.empty 1 "hello #Rust world #ai #Rust" 0).2.content_affinity
        1).getD []) "#Rust").getD 0 = 2 ∧
    (okPost (reshare_post w5St 1 1 4).1).hashtags
      = extract_hashtags ("Reshared: " ++ wPost.content) :=
  ⟨by decide, by decide,
    (C8_hashtag_extraction w5St 1 "x" PostType.Original 4 "#a" 1).2.2.2.2.2.2 wPost rfl⟩

/-- C9: the author may like their own post — when the post exists and the
author has not yet liked it, `like_post` returns Ok with the author appended
to the likes, and records a weight-1 self-loop in the interaction graph. -/
theorem C9_self_like (st : State) (u : Principal) (pid : Nat) (now : Nat) (post : Post)
    (hp : lookupA st.posts pid = some post) (hauth : post.author = u)
    (hm : ¬ u ∈ post.likes) :
    (like_post st u pid now).1 = Except.ok { post with likes := post.likes ++ [u] } ∧
    (lookupA ((lookupA (like_post st u pid now).2.interaction_graph u).getD []) u).getD 0
      = (lookupA ((lookupA st.interaction_graph u).getD []) u).getD 0 + 1 := by
  constructor
  · simp [like_post, hp, hm]
  · have h1 := like_strength st u pid now post hp hm
    rw [get_connection_strength_eq, get_connection_strength_eq, hauth] at h1
    exact h1

def wSelfPost : Post :=
  { id := 1, author := 1, content := "m", created_at := 0, likes := []
    comments := [], hashtags := [], post_type := PostType.Original, reshare_count := 0 }

def wSelfSt : State := { State.empty with posts := [(1, wSelfPost)] }

/-- C9 (witness): principal 1 likes their own post; the call succeeds and the
(1,1) self-loop strength becomes 1. -/
theorem C9_witness :
    (like_post wSelfSt 1 1 0).1
      = Except.ok { wSelfPost with likes := [1] } ∧
    (lookupA ((lookupA (like_post wSelfSt 1 1 0).2.interaction_graph 1).getD []) 1).getD 0
      = (lookupA ((lookupA wSelfSt.interaction_graph 1).getD []) 1).getD 0 + 1 :=
  C9_self_like wSelfSt 1 1 0 wSelfPost rfl rfl (by decide)

/-- C10: a successful `unfollow_user` decrements the caller's
`following_count` and the target's `followers_count` with saturating
subtraction (`Nat` truncated subtraction): a counter already at 0 stays 0,
even when the counters are inconsistent with the follow relation. -/
theorem C10_unfollow_saturating (st : State) (caller uid : Principal)
    (hok : (unfollow_user st caller uid).1 = Except.ok ()) (hne : ¬ caller = uid) :
    lookupA (unfollow_user st caller uid).2.profiles caller
      = (lookupA st.profiles caller).map
          (fun p => { p with following_count := p.following_count - 1 }) ∧
    lookupA (unfollow_user st caller uid).2.profiles uid
      = (lookupA st.profiles uid).map
          (fun p => { p with followers_count := p.followers_count - 1 }) ∧
    (∀ p, lookupA st.profiles caller = some p → p.following_count = 0 →
      lookupA (unfollow_user st caller uid).2.profiles caller
        = some { p with following_count := 0 }) ∧
    (∀ p, lookupA st.profiles uid = some p → p.followers_count = 0 →
      lookupA (unfollow_user st caller uid).2.profiles uid
        = some { p with followers_count := 0 }) := by
  cases hl : lookupA st.follows caller with
  | none =>
    rw [unfollow_user] at hok
    simp [hl] at hok
  | some following =>
    by_cases hm : uid ∈ following
    · have hprof : (unfollow_user st caller uid).2.profiles
          = modifyA (fun p => { p with followers_count := p.followers_count - 1 })
              (modifyA (fun p => { p with following_count := p.following_count - 1 })
                st.profiles caller) uid := by
        simp [unfollow_user, hl, hm]
      have hc1 : lookupA (unfollow_user st caller uid).2.profiles caller
          = (lookupA st.profiles caller).map
              (fun p => { p with following_count := p.following_count - 1 }) := by
        rw [hprof, lookupA_modifyA, if_neg (fun he => hne he.symm),
          lookupA_modifyA, if_pos rfl]
      have hc2 : lookupA (unfollow_user st caller uid).2.profiles uid
          = (lookupA st.profiles uid).map
              (fun p => { p with followers_count := p.followers_count - 1 }) := by
        rw [hprof, lookupA_modifyA, if_pos rfl, lookupA_modifyA, if_neg hne]
      refine ⟨hc1, hc2, ?_, ?_⟩
      · intro p hp h0
        rw [hc1, hp]
        simp [h0]
      · intro p hp h0
        rw [hc2, hp]
        simp [h0]
    · rw [unfollow_user] at hok
      simp [hl, hm] at hok

def wProfZero (i : Nat) : UserProfile :=
  { id := i, username := "z", bio := [], avatar_url := [], followers_count := 0
    following_count := 0, created_at := 0 }

def wUnfSt : State :=
  { State.empty with
    follows := [(1, [2])]
    profiles := [(1, wProfZero 1), (2, wProfZero 2)] }

/-- C10 (witness): unfollowing with both counters already at 0 succeeds and
leaves both counters at 0 (no underflow). -/
theorem C10_witness :
    lookupA (unfollow_user wUnfSt 1 2).2.profiles 1
      = some { wProfZero 1 with following_count := 0 } ∧
    lookupA (unfollow_user wUnfSt 1 2).2.profiles 2
      = some { wProfZero 2 with followers_count := 0 } :=
  ⟨(C10_unfollow_saturating wUnfSt 1 2 rfl (by decide)).2.2.1 (wProfZero 1) rfl rfl,
    (C10_unfollow_saturating wUnfSt 1 2 rfl (by decide)).2.2.2 (wProfZero 2) rfl rfl⟩

end ToknTalk
